import Mathlib

/-
Verification of the mrpack2server provisioning service (src/app.py) against its
natural-language specification.  Python functions are shallowly embedded as
executable Lean definitions; filesystem and network effects are made explicit
as state records and environment parameters.  Line numbers in doc comments
refer to src/app.py.
-/

namespace Mrpack

/-- Decidable equality for Except, used to evaluate the embedded functions on
concrete inputs. -/
instance {ε α : Type} [DecidableEq ε] [DecidableEq α] : DecidableEq (Except ε α) := fun x y =>
  match x, y with
  | .ok a, .ok b =>
    if h : a = b then .isTrue (by rw [h])
    else .isFalse (by intro hc; injection hc; contradiction)
  | .error e, .error f =>
    if h : e = f then .isTrue (by rw [h])
    else .isFalse (by intro hc; injection hc; contradiction)
  | .ok _, .error _ => .isFalse (by intro hc; exact Except.noConfusion hc)
  | .error _, .ok _ => .isFalse (by intro hc; exact Except.noConfusion hc)

/-- ASCII lowercase of one character, mirroring Python str.lower for the
ASCII file names this code handles. -/
def lowerCh (c : Char) : Char :=
  if 65 ≤ c.toNat && c.toNat ≤ 90 then Char.ofNat (c.toNat + 32) else c

/-- Lowercase a character list. -/
def lowerL (l : List Char) : List Char := l.map lowerCh

/-- True when the first list is an initial segment of the second
(Python str.startswith on the corresponding strings). -/
def leadEq : List Char → List Char → Bool
  | [], _ => true
  | _ :: _, [] => false
  | a :: as, b :: bs => a == b && leadEq as bs

/-- True when the needle occurs as a contiguous sublist of the hay
(Python substring membership, the `in` operator on str). -/
def containsSub (n : List Char) : List Char → Bool
  | [] => n.isEmpty
  | c :: t => leadEq n (c :: t) || containsSub n t

/-- True when the first list is a final segment of the second
(Python str.endswith on the corresponding strings). -/
def tailEq (suf l : List Char) : Bool := leadEq suf.reverse l.reverse

/-- Python whitespace for str.strip. -/
def isPySpace (c : Char) : Bool :=
  c == ' ' || c == '\t' || c == '\n' || c == '\r' || c == '\x0b' || c == '\x0c'

/-- Python str.strip: remove leading and trailing whitespace. -/
def stripL (l : List Char) : List Char :=
  ((l.dropWhile isPySpace).reverse.dropWhile isPySpace).reverse

/-- Characters admitted by the character class [a-zA-Z0-9_-]. -/
def isIdChar (c : Char) : Bool :=
  let n := c.toNat
  (decide (97 ≤ n) && decide (n ≤ 122)) ||
  (decide (65 ≤ n) && decide (n ≤ 90)) ||
  (decide (48 ≤ n) && decide (n ≤ 57)) ||
  c == '_' || c == '-'

/-- Python re.match of the pattern anchored as caret [a-zA-Z0-9_-]+ dollar
(app.py line 2255).  In Python, without re.MULTILINE the dollar anchor matches
at the end of the string or just before a single trailing newline, so a string
consisting of identifier characters followed by one final newline also
matches. -/
def re_match_id_full (l : List Char) : Bool :=
  (!l.isEmpty && l.all isIdChar) ||
  (l.getLast? == some '\n' && !l.dropLast.isEmpty && l.dropLast.all isIdChar)

/-- validate_request_id (app.py lines 2249-2262).  Returns the pair
(identifier, error): exactly one of the two components is present. -/
def validate_request_id (s : String) : Option String × Option String :=
  if s = "" then (none, some "Missing request ID")
  else if !(re_match_id_full s.data) then (none, some "Invalid request ID format")
  else if 100 < s.data.length then (none, some "Request ID too long")
  else (some s, none)

/-- Modelled from the spec for the refinement side of claim C8: acceptance by
the documented pattern caret [a-zA-Z0-9_-] repeated 1 to 100 times dollar, read
as a plain full match with no newline allowance. -/
def spec_request_id_ok (s : String) : Bool :=
  !s.data.isEmpty && s.data.all isIdChar && decide (s.data.length ≤ 100)

/-- Lookup in an association list modelling a Python dict (first binding
wins; dict keys are unique so this is exact). -/
def lookupAssoc (k : String) (deps : List (String × String)) : Option String :=
  (deps.find? (fun p => p.1 == k)).map (fun p => p.2)

/-- Python loader.split("-")[0]: the text before the first dash. -/
def first_dash_component (s : String) : String :=
  String.mk (s.data.takeWhile (fun c => !(c == '-')))

/-- detect_loader (app.py lines 2419-2422): scan the fixed key list in order
and return the first hit, mapped through split("-")[0]; the Python function
falls off the end and returns None when no key is present. -/
def detect_loader (deps : List (String × String)) : Option (String × String) :=
  match ["fabric-loader", "forge", "quilt-loader", "neoforge"].find?
      (fun k => (lookupAssoc k deps).isSome) with
  | some k =>
    match lookupAssoc k deps with
    | some v => some (first_dash_component k, v)
    | none => none
  | none => none

/-- Outcome of the loader-detection step of generate_server. -/
inductive LoaderPhase where
  | detected (loader_type loader_version : String)
  | failed (response_error : String) (mods_download_started : Bool)
deriving DecidableEq

/-- The loader-detection step of generate_server (app.py lines 2312-2342).
detect_loader is called at line 2314, before the mod-download phase at line
2336.  When it returns None, the tuple unpacking at line 2314 raises
TypeError, which is caught by the generic handler at lines 2405-2412: the
message is not JSON, so the response body is the generic string
"Internal server error" and no mod download has started. -/
def loader_detect_phase (deps : List (String × String)) : LoaderPhase :=
  match detect_loader deps with
  | some (lt, lv) => .detected lt lv
  | none => .failed "Internal server error" false

/-- State of the module-level log dictionaries: log_locks (the set of request
ids owning a lock) and log_buffers (request id to buffered lines). -/
structure LogState where
  log_locks : List String
  log_buffers : List (String × List (List Char))
deriving DecidableEq

/-- Set a key in an association list, replacing the first binding or
appending a new one (Python dict assignment). -/
def setAssoc {α : Type} (k : String) (v : α) : List (String × α) → List (String × α)
  | [] => [(k, v)]
  | (k2, w) :: t => if k2 == k then (k2, v) :: t else (k2, w) :: setAssoc k v t

/-- Read a buffer from the log state. -/
def getBuf (rid : String) (st : LogState) : Option (List (List Char)) :=
  (st.log_buffers.find? (fun p => p.1 == rid)).map (fun p => p.2)

/-- Message sanitization in push_log (app.py line 2127): replace each newline
by a space, delete carriage returns, then truncate to 1000 characters. -/
def sanitize_message (m : List Char) : List Char :=
  ((m.map (fun c => if c == '\n' then ' ' else c)).filter (fun c => !(c == '\r'))).take 1000

/-- Buffer append with the 10000-line cap (app.py lines 2142-2145): append,
then keep only the last 10000 lines when the length exceeds the cap. -/
def buffer_append_capped (buf : List (List Char)) (line : List Char) : List (List Char) :=
  let b := buf ++ [line]
  if 10000 < b.length then b.drop (b.length - 10000) else b

/-- push_log (app.py lines 2120-2156).  An empty request id is rejected at
line 2122.  Lines 2131-2136 lazily create the lock and buffer for an unseen
request id (the double-checked locking is atomic in this sequential model);
lines 2139-2145 re-check the buffer, append the sanitized line and enforce
the cap. -/
def push_log (request_id : String) (message : List Char) (st : LogState) : LogState :=
  if request_id = "" then st
  else
    let st1 : LogState :=
      if st.log_locks.contains request_id then st
      else ⟨st.log_locks ++ [request_id], setAssoc request_id [] st.log_buffers⟩
    let buf := (getBuf request_id st1).getD []
    ⟨st1.log_locks, setAssoc request_id (buffer_append_capped buf (sanitize_message message)) st1.log_buffers⟩

/-- Apply a sequence of push_log calls to a log state. -/
def apply_push_log (pushes : List (String × List Char)) (st : LogState) : LogState :=
  pushes.foldl (fun s p => push_log p.1 p.2 s) st

/-- Exclusion test of the JAR-selection heuristic (app.py line 2767 and line
3637): case-insensitive substring match of launch, installer or client. -/
def jar_excluded (f : String) : Bool :=
  let l := lowerL f.data
  containsSub "launch".data l || containsSub "installer".data l || containsSub "client".data l

/-- Preference test of the Fabric variant (app.py line 2770): the lowercase
name contains server or starts with minecraft. -/
def fabric_preferred (f : String) : Bool :=
  let l := lowerL f.data
  containsSub "server".data l || leadEq "minecraft".data l

/-- Preference test of the NeoForge variant (app.py line 3640): the lowercase
name contains server or neoforge. -/
def neoforge_preferred (f : String) : Bool :=
  let l := lowerL f.data
  containsSub "server".data l || containsSub "neoforge".data l

/-- The jar_files list (app.py line 2739 and line 3609): directory entries
ending in .jar whose lowercase name does not contain installer. -/
def jar_candidates (listing : List String) : List String :=
  listing.filter
    (fun f => tailEq ".jar".data f.data && !(containsSub "installer".data (lowerL f.data)))

/-- The candidate-building loop (app.py lines 2763-2773 and 3633-3643):
excluded names are skipped, preferred names are inserted at position 0,
all other names are appended. -/
def prioritize (pref excl : String → Bool) (jar_files : List String) : List String :=
  jar_files.foldl
    (fun acc f => if excl f then acc else if pref f then f :: acc else acc ++ [f]) []

/-- Target-jar choice (app.py lines 2776-2781 and 3646-3651): the head of the
prioritized candidates, falling back to the head of jar_files. -/
def select_target_jar (pref excl : String → Bool) (listing : List String) : Option String :=
  let jar_files := jar_candidates listing
  match prioritize pref excl jar_files with
  | c :: _ => some c
  | [] => jar_files.head?

/-- The Fabric JAR-selection heuristic applied to a directory listing
(setup_fabric, app.py lines 2736-2781). -/
def fabric_select_jar (listing : List String) : Option String :=
  select_target_jar fabric_preferred jar_excluded listing

/-- The NeoForge JAR-selection heuristic applied to a directory listing
(setup_neoforge, app.py lines 3606-3651). -/
def neoforge_select_jar (listing : List String) : Option String :=
  select_target_jar neoforge_preferred jar_excluded listing

/-- Modelled from the spec for the corrected form of claim C5: the same
exclusion and preference tests, but with the preferred names listed in the
reverse of directory order (they are prepended one by one) ahead of the
non-preferred names in directory order. -/
def heuristic_spec_form (pref excl : String → Bool) (listing : List String) : Option String :=
  let jar_files := jar_candidates listing
  let remaining := jar_files.filter (fun f => !(excl f))
  match (remaining.filter pref).reverse ++ remaining.filter (fun f => !(pref f)) with
  | c :: _ => some c
  | [] => jar_files.head?

/-- A relative path rejected by the ZIP builder (app.py line 1787): it
contains a dotdot segment or is absolute. -/
def zip_unsafe_path (p : String) : Bool :=
  containsSub "..".data p.data || leadEq "/".data p.data

/-- The per-file loop of build_zip_to_tempfile (app.py lines 1768-1793) over
the walked files, each a pair of relative path and byte size.  Per file, in
source order: the file-count cap check, the running-size accumulation and cap
check, the traversal-safety skip, and finally the write. -/
def zip_walk : List (String × Nat) → Nat → Nat → List String → Except Unit (List String)
  | [], _, _, acc => .ok acc
  | (p, sz) :: rest, count, total, acc =>
    if 100000 ≤ count then .error ()
    else
      let total2 := total + sz
      if 10 * 1024 ^ 3 < total2 then .error ()
      else if zip_unsafe_path p then zip_walk rest count total2 acc
      else zip_walk rest (count + 1) total2 (acc ++ [p])

/-- build_zip_to_tempfile (app.py lines 1747-1810) as a function of the
walked server directory.  An ok result lists the arcnames written; an error
result models the raise path at lines 1802-1810, which removes the partial
temporary ZIP before re-raising, so on error no ZIP file remains on disk. -/
def build_zip_to_tempfile (files : List (String × Nat)) : Except Unit (List String) :=
  zip_walk files 0 0 []

/-- One entry of the module-level _forge_cache dict (app.py line 191). -/
structure CacheInfo where
  path : String
  is_zip : Bool
  size : Nat
  timestamp : Nat
deriving DecidableEq

/-- FORGE_CACHE_MAX_AGE (app.py line 193): seven days in seconds. -/
def FORGE_CACHE_MAX_AGE : Nat := 7 * 24 * 3600

/-- FORGE_CACHE_MAX_SIZE (app.py line 194): ten gibibytes. -/
def FORGE_CACHE_MAX_SIZE : Nat := 10 * 1024 ^ 3

/-- State touched by the forge cache: the cache dict, the sizes of the files
on disk, and the current clock value. -/
structure ForgeCacheState where
  cache : List (String × CacheInfo)
  fs : List (String × Nat)
  now : Nat
deriving DecidableEq

/-- Size of a file on disk, None when the file does not exist. -/
def fs_size (st : ForgeCacheState) (p : String) : Option Nat :=
  (st.fs.find? (fun q => q.1 == p)).map (fun q => q.2)

/-- Delete a key from an association list (Python del / os.remove). -/
def removeAssoc {α : Type} (k : String) (l : List (String × α)) : List (String × α) :=
  l.filter (fun q => !(q.1 == k))

/-- _get_forge_from_cache (app.py lines 2906-2929).  Returns the entry only
when the backing file exists, the age is under FORGE_CACHE_MAX_AGE and the
recorded size equals the on-disk size.  Only the expired-age branch (lines
2922-2928) deletes the file and removes the entry; a missing backing file or
a size mismatch falls through to the final return None with the cache dict
unchanged. -/
def get_forge_from_cache (version : String) (st : ForgeCacheState) :
    Option CacheInfo × ForgeCacheState :=
  match st.cache.find? (fun q => q.1 == version) with
  | none => (none, st)
  | some (_, info) =>
    match fs_size st info.path with
    | some diskSize =>
      if st.now - info.timestamp < FORGE_CACHE_MAX_AGE then
        if diskSize == info.size then (some info, st) else (none, st)
      else
        (none, { st with fs := removeAssoc info.path st.fs,
                         cache := removeAssoc version st.cache })
    | none => (none, st)

/-- Total recorded size of all cache entries (app.py line 2938). -/
def total_cache_size (st : ForgeCacheState) : Nat :=
  (st.cache.map (fun q => q.2.size)).sum

/-- _save_forge_to_cache (app.py lines 2932-2956).  A missing file makes
os.path.getsize raise, which the except at line 2955 turns into a logged
no-op; a store that would push the total over FORGE_CACHE_MAX_SIZE is
skipped; otherwise the entry is recorded with the current time. -/
def save_forge_to_cache (version file_path : String) (is_zip : Bool)
    (st : ForgeCacheState) : ForgeCacheState :=
  match fs_size st file_path with
  | none => st
  | some file_size =>
    if FORGE_CACHE_MAX_SIZE < total_cache_size st + file_size then st
    else { st with cache := setAssoc version ⟨file_path, is_zip, file_size, st.now⟩ st.cache }

/-- Behaviour of the HTTP transport during one download attempt: either the
request or status check fails before any body data (a RequestException), or a
response arrives with an optional declared Content-Length, a sequence of body
chunk sizes, and a flag telling whether the transfer is cut by a transport
error after those chunks. -/
inductive AttemptScript where
  | connectFail
  | response (contentLength : Option Nat) (chunks : List Nat) (interrupted : Bool)
deriving DecidableEq

/-- State of the destination file. -/
structure DlState where
  destExists : Bool
  destBytes : Nat
deriving DecidableEq

/-- Result of one attempt body. -/
inductive AttemptOutcome where
  | ok (st : DlState)
  | transportErr (st : DlState)
  | fatalErr (st : DlState)
deriving DecidableEq

/-- The chunk loop of download_to_file (app.py lines 2482-2488): empty chunks
are skipped, the running count is bumped, and exceeding max_size removes the
destination and raises ValueError (None result). -/
def write_chunks (maxSize : Nat) : List Nat → Nat → Option Nat
  | [], n => some n
  | c :: rest, n =>
    if c == 0 then write_chunks maxSize rest n
    else if maxSize < n + c then none
    else write_chunks maxSize rest (n + c)

/-- The chunk loop of async_download_to_file (app.py lines 1600-1605), which
has no emptiness guard on the chunk. -/
def async_write_chunks (maxSize : Nat) : List Nat → Nat → Option Nat
  | [], n => some n
  | c :: rest, n =>
    if maxSize < n + c then none
    else async_write_chunks maxSize rest (n + c)

/-- The response body of one download attempt (app.py lines 2472-2491): the
destination is opened for writing (truncating it), the chunks are written
under the size cap, and an interrupted transfer surfaces as a transport
error with the partial file still present. -/
def run_body (maxSize : Nat) (chunks : List Nat) (interrupted : Bool) : AttemptOutcome :=
  match write_chunks maxSize chunks 0 with
  | none => .fatalErr ⟨false, 0⟩
  | some n => if interrupted then .transportErr ⟨true, n⟩ else .ok ⟨true, n⟩

/-- One attempt of download_to_file (app.py lines 2459-2491): a connect or
status failure raises RequestException before the destination is opened; a
declared Content-Length over max_size raises ValueError at line 2478, before
the open at line 2481, leaving the destination state untouched. -/
def run_attempt (maxSize : Nat) (script : AttemptScript) (st : DlState) : AttemptOutcome :=
  match script with
  | .connectFail => .transportErr st
  | .response cl chunks interrupted =>
    match cl with
    | some n => if maxSize < n then .fatalErr st else run_body maxSize chunks interrupted
    | none => run_body maxSize chunks interrupted

/-- Final result of download_to_file. -/
inductive DlResult where
  | success (st : DlState)
  | raised (st : DlState)
  | fellThrough (st : DlState)
deriving DecidableEq

/-- The retry loop of download_to_file (app.py lines 2458-2513), driven by
one AttemptScript per loop iteration.  A RequestException on a non-final
attempt continues without cleanup (line 2504); a RequestException on the
final attempt removes the destination if present and re-raises (lines
2493-2502); any other exception removes the destination if present and
re-raises at once (lines 2505-2513).  An empty script list models
range(0), where the loop body never runs. -/
def download_to_file (maxSize : Nat) : List AttemptScript → DlState → DlResult
  | [], st => .fellThrough st
  | [s], st =>
    match run_attempt maxSize s st with
    | .ok st2 => .success st2
    | .transportErr _ => .raised ⟨false, 0⟩
    | .fatalErr _ => .raised ⟨false, 0⟩
  | s :: rest, st =>
    match run_attempt maxSize s st with
    | .ok st2 => .success st2
    | .transportErr st2 => download_to_file maxSize rest st2
    | .fatalErr _ => .raised ⟨false, 0⟩

/-- async_download_to_file (app.py lines 1582-1616): a single attempt whose
except block removes the destination when present and re-raises, for every
kind of failure. -/
def async_download_to_file (maxSize : Nat) (script : AttemptScript) (st : DlState) : DlResult :=
  match script with
  | .connectFail => .raised ⟨false, 0⟩
  | .response cl chunks interrupted =>
    match cl with
    | some n =>
      if maxSize < n then .raised ⟨false, 0⟩
      else
        match async_write_chunks maxSize chunks 0 with
        | none => .raised ⟨false, 0⟩
        | some k => if interrupted then .raised ⟨false, 0⟩ else .success ⟨true, k⟩
    | none =>
      match async_write_chunks maxSize chunks 0 with
      | none => .raised ⟨false, 0⟩
      | some k => if interrupted then .raised ⟨false, 0⟩ else .success ⟨true, k⟩

/-- Observable behaviour of the installer child process: the timed sequence
of raw lines its stdout delivers to readline, and the optional time and code
of its exit (at which stdout reaches EOF).  A missing exit means the process
never terminates on its own. -/
structure ChildProc where
  events : List (Nat × String)
  exitAt : Option (Nat × Int)
deriving DecidableEq

/-- Final observable behaviour of run_installer: the (code, output) tuple put
on the result queue, or divergence because a blocking call never returns. -/
inductive RunResult where
  | result (code : Int) (output : List String)
  | blockedForever
deriving DecidableEq

/-- The success phrases recognised at app.py line 2564. -/
def success_phrase (line : List Char) : Bool :=
  containsSub "The server installed successfully".data line ||
  containsSub "Installer completed with code 0".data line

/-- The code after the read loop breaks (app.py lines 2590-2600):
process.wait() blocks forever when the child never exits; otherwise the
remaining buffered output is read in one piece, appended, and the (code,
output) tuple is queued. -/
def installer_finish (exitAt : Option (Nat × Int)) (restRaw : List String)
    (output : List String) : RunResult :=
  match exitAt with
  | none => .blockedForever
  | some (_, code) =>
    if restRaw.isEmpty then .result code output
    else .result code (output ++ [String.intercalate "\n" restRaw])

/-- The timeout checks run after each readline return at time t (app.py
lines 2570-2588): a finished process breaks to the wait code; more than
NO_OUTPUT_TIMEOUT seconds since the last non-blank line terminates the
process and queues -1; exceeding the overall budget does the same. -/
def installer_checks (timeoutSecs : Nat) (exitAt : Option (Nat × Int))
    (rest : List (Nat × String)) (t lastOut : Nat) (output : List String)
    (continue_loop : Nat → RunResult) : RunResult :=
  if (match exitAt with | some (te, _) => decide (te ≤ t) | none => false) then
    installer_finish exitAt (rest.map (fun e => e.2)) output
  else if 300 < t - lastOut then
    .result (-1) (output ++ ["Installer timed out due to no output"])
  else if timeoutSecs < t then
    .result (-1) (output ++ ["Installer timed out after " ++ toString timeoutSecs ++ " seconds"])
  else continue_loop lastOut

/-- The read loop of run_installer (app.py lines 2556-2588).  readline blocks
until the child delivers a line or its stdout reaches EOF: while events
remain, readline returns the next one at its time; with no events left,
readline returns the empty string at exit time when the child exits, and
blocks forever when it never does — in that case no check in the loop body is
ever reached again. -/
def installer_loop (timeoutSecs : Nat) (exitAt : Option (Nat × Int)) :
    List (Nat × String) → Nat → List String → RunResult
  | [], _, output =>
    (match exitAt with
     | some _ => installer_finish exitAt [] output
     | none => .blockedForever)
  | (t, raw) :: rest, lastOut, output =>
    let line := stripL raw.data
    if line.isEmpty then
      installer_checks timeoutSecs exitAt rest t lastOut output
        (fun lo => installer_loop timeoutSecs exitAt rest lo output)
    else
      let output2 := output ++ [String.mk line]
      if success_phrase line then installer_finish exitAt (rest.map (fun e => e.2)) output2
      else
        installer_checks timeoutSecs exitAt rest t t output2
          (fun lo => installer_loop timeoutSecs exitAt rest lo output2)

/-- run_installer (app.py lines 2529-2603): fail fast when the Java binary is
missing, pick the overall timeout from the installer path (NEOFORGE_TIMEOUT
900 for neoforge, DEFAULT_INSTALLER_TIMEOUT 300 otherwise), then supervise
the child through the read loop, starting the clock at 0. -/
def run_installer (javaExists : Bool) (installer_path : String) (child : ChildProc) : RunResult :=
  if !javaExists then .result (-1) ["Java not found"]
  else
    let timeoutSecs :=
      if containsSub "neoforge".data (lowerL installer_path.data) then 900 else 300
    installer_loop timeoutSecs child.exitAt child.events 0 []

/-- One write into the server directory performed by a provisioning variant:
a text file with known content, a binary jar placed under a name, or an
extracted or relocated tree.  Binary payloads are abstracted away. -/
inductive FsWrite where
  | file (name : String) (content : String)
  | jar (name : String)
  | tree (label : String)
deriving DecidableEq

/-- The eula write shared by all variants (app.py lines 2816-2818, 3426-3428,
3692-3694, 4160-4162). -/
def eula_write : FsWrite := .file "eula.txt" "eula=false\n"

/-- The renaming of the selected JAR to server.jar as performed by setup_fabric
(app.py lines 2795-2813) and setup_neoforge (lines 3665-3689): no write when
the selected name already is server.jar. -/
def rename_to_server_jar (target : String) : List FsWrite :=
  if target == "server.jar" then [] else [.jar "server.jar"]

/-- setup_fabric (app.py lines 2606-2822) reduced to its control flow over
the server directory.  Environment inputs: whether the installer metadata
fetch and download succeed (lines 2616-2631), whether the server directory is
writable (line 2632), whether the wrapper process join times out (lines
2684-2694), the exit code obtained from the queue (lines 2652-2723), and the
directory listing after the installer ran (line 2737).  On the success path
the selected JAR is renamed to server.jar and eula.txt is the final write
into the server directory (lines 2815-2818); the installer deletion at line
2821 touches the temp directory, not the server directory. -/
def setup_fabric (fetchOk writable wrapperTimeout : Bool) (rc : Int)
    (listing : List String) : Except String (List FsWrite) :=
  if !fetchOk then .error "Installer fetch failed"
  else if !writable then .error "Permission denied"
  else if wrapperTimeout then .error "Installer timeout"
  else if rc != 0 then .error "Fabric installer failed"
  else if (jar_candidates listing).isEmpty then .error "No JAR files found"
  else
    match fabric_select_jar listing with
    | none => .error "server.jar not found"
    | some target => .ok (rename_to_server_jar target ++ [eula_write])

/-- Environment of setup_neoforge: outcomes of the steps preceding the final
JAR selection, in source order. -/
structure NeoForgeEnv where
  versionsOk : Bool
  matchFound : Bool
  downloadOk : Bool
  sizeOk : Bool
  zipIntact : Bool
  writable : Bool
  javaFound : Bool
  wrapperTimeout : Bool
  rc : Int
  listing : List String
deriving DecidableEq

/-- setup_neoforge (app.py lines 3432-3698) reduced to its control flow over
the server directory: the Maven version fetch (lines 3443-3454), suffix match
(lines 3456-3464), installer download and validation (lines 3470-3497), the
writability and Java checks (lines 3498-3515), the supervised installer run
(lines 3518-3605), then the JAR selection and rename, with eula.txt the final
write into the server directory (lines 3691-3694); the installer deletion at
line 3697 is outside the server directory. -/
def setup_neoforge (env : NeoForgeEnv) : Except String (List FsWrite) :=
  if !env.versionsOk then .error "Version fetch failed"
  else if !env.matchFound then .error "No matching version"
  else if !env.downloadOk then .error "Installer download failed"
  else if !env.sizeOk then .error "Invalid installer"
  else if !env.zipIntact then .error "Corrupt installer"
  else if !env.writable then .error "Permission denied"
  else if !env.javaFound then .error "Java not found"
  else if env.wrapperTimeout then .error "Installer timeout"
  else if env.rc != 0 then .error "NeoForge installer failed"
  else if (jar_candidates env.listing).isEmpty then .error "No JAR files found"
  else
    match neoforge_select_jar env.listing with
    | none => .error "server.jar not found"
    | some target => .ok (rename_to_server_jar target ++ [eula_write])

/-- Environment of setup_forge, in source order. -/
structure ForgeEnv where
  writable : Bool
  cacheHit : Bool
  cacheIsZip : Bool
  cacheUseOk : Bool
  versionHasDash : Bool
  apiOk : Bool
  isZip : Bool
  downloadOk : Bool
  sizeOk : Bool
  zipIntact : Bool
  serverJarAtRoot : Bool
  libMoved : Bool
deriving DecidableEq

/-- The writes of the forge ZIP branch (app.py lines 3255-3314): extract the
archive, move server.jar to the root when nested, move or rename the
libraries folder when found elsewhere. -/
def forge_zip_writes (serverJarAtRoot libMoved : Bool) : List FsWrite :=
  [.tree "zip-extract"] ++
  (if serverJarAtRoot then [] else [.jar "server.jar"]) ++
  (if libMoved then [.tree "libraries"] else [])

/-- setup_forge (app.py lines 3100-3429) reduced to its control flow over the
server directory: the writability check (line 3110), the cache-hit path
(lines 3123-3169, falling through to a fresh download when using the cache
raises), the API resolution (lines 3172-3190), the ZIP and bare-JAR branches
with their download and validation steps (lines 3193-3420), and in every
successful branch the eula.txt write as the last action (lines 3425-3428). -/
def setup_forge (env : ForgeEnv) : Except String (List FsWrite) :=
  if !env.writable then .error "Permission denied"
  else if env.cacheHit && env.cacheUseOk then
    .ok ((if env.cacheIsZip then
            [.tree "zip-extract"] ++ (if env.serverJarAtRoot then [] else [.jar "server.jar"])
          else [.jar "server.jar"]) ++ [eula_write])
  else if !env.versionHasDash then .error "Invalid API response"
  else if !env.apiOk then .error "Invalid API response"
  else if env.isZip then
    if !env.downloadOk then .error "ZIP download failed"
    else if !env.sizeOk then .error "Invalid ZIP"
    else if !env.zipIntact then .error "Corrupt ZIP"
    else .ok (forge_zip_writes env.serverJarAtRoot env.libMoved ++ [eula_write])
  else
    if !env.downloadOk then .error "JAR download failed"
    else if !env.sizeOk then .error "Invalid JAR"
    else if !env.zipIntact then .error "Invalid JAR format"
    else .ok ([.jar "server.jar"] ++ [eula_write])

/-- Environment of setup_quilt, in source order. -/
structure QuiltEnv where
  writable : Bool
  apiOk : Bool
  urlFound : Bool
  isZip : Bool
  downloadOk : Bool
  sizeOk : Bool
  zipIntact : Bool
  serverJarAtRoot : Bool
  minecraftJarPresent : Bool
  vanillaOk : Bool
  launcherPropsPresent : Bool
deriving DecidableEq

/-- The tail of setup_quilt after server.jar is in place (app.py lines
4132-4163): fetch minecraft.jar when absent (a failed fetch only warns, lines
4139-4142), create quilt-server-launcher.properties when absent (lines
4146-4154), and finally write eula.txt (lines 4159-4162). -/
def quilt_tail (env : QuiltEnv) : List FsWrite :=
  (if env.minecraftJarPresent then []
   else if env.vanillaOk then [.jar "minecraft.jar"] else []) ++
  (if env.launcherPropsPresent then []
   else [.file "quilt-server-launcher.properties" "serverJar=minecraft.jar\n"]) ++
  [eula_write]

/-- setup_quilt (app.py lines 3784-4163) reduced to its control flow over the
server directory: the writability check (line 3796), the build resolution on
the metadata API (lines 3809-3942), the ZIP and bare-JAR branches with their
download and validation steps (lines 3947-4130), then the vanilla-jar and
launcher-properties tail with eula.txt as the final write. -/
def setup_quilt (env : QuiltEnv) : Except String (List FsWrite) :=
  if !env.writable then .error "Permission denied"
  else if !env.apiOk then .error "API query failed"
  else if !env.urlFound then .error "Invalid API response"
  else if env.isZip then
    if !env.downloadOk then .error "ZIP download failed"
    else if !env.sizeOk then .error "Invalid ZIP"
    else if !env.zipIntact then .error "Corrupt ZIP"
    else .ok (([.tree "zip-extract"] ++
               (if env.serverJarAtRoot then [] else [.jar "server.jar"])) ++ quilt_tail env)
  else
    if !env.downloadOk then .error "JAR download failed"
    else if !env.sizeOk then .error "Invalid JAR"
    else if !env.zipIntact then .error "Invalid JAR format"
    else .ok ([.jar "server.jar"] ++ quilt_tail env)

/-- The sanitized forms of the messages a push sequence sends to one request
id, in order. -/
def msgs_for (rid : String) (pushes : List (String × List Char)) : List (List Char) :=
  (pushes.filter (fun p => p.1 == rid)).map (fun p => sanitize_message p.2)

theorem setAssoc_lookup_self {α : Type} (k : String) (v : α) (l : List (String × α)) :
    ((setAssoc k v l).find? (fun p => p.1 == k)).map (fun p => p.2) = some v := by
  induction l with
  | nil => simp [setAssoc, List.find?]
  | cons hd tl ih =>
    obtain ⟨k2, w⟩ := hd
    by_cases h : k2 = k
    · subst h
      simp [setAssoc, List.find?]
    · have hb : (k2 == k) = false := beq_eq_false_iff_ne.mpr h
      simp [setAssoc, hb, List.find?, ih]

theorem setAssoc_lookup_other {α : Type} (k r : String) (v : α) (l : List (String × α))
    (h : (k == r) = false) :
    ((setAssoc k v l).find? (fun p => p.1 == r)).map (fun p => p.2) =
      (l.find? (fun p => p.1 == r)).map (fun p => p.2) := by
  induction l with
  | nil => simp [setAssoc, List.find?, h]
  | cons hd tl ih =>
    obtain ⟨k2, w⟩ := hd
    by_cases h2 : k2 = k
    · subst h2
      simp [setAssoc, List.find?, h]
    · have hb : (k2 == k) = false := beq_eq_false_iff_ne.mpr h2
      by_cases h4 : k2 = r
      · subst h4
        simp [setAssoc, hb, List.find?]
      · have hb4 : (k2 == r) = false := beq_eq_false_iff_ne.mpr h4
        simp [setAssoc, hb, hb4, List.find?, ih]

theorem setAssoc_find_self {α : Type} (k : String) (v : α) (l : List (String × α)) :
    (setAssoc k v l).find? (fun p => p.1 == k) = some (k, v) := by
  induction l with
  | nil => simp [setAssoc, List.find?]
  | cons hd tl ih =>
    obtain ⟨k2, w⟩ := hd
    by_cases h : k2 = k
    · subst h
      simp [setAssoc, List.find?]
    · have hb : (k2 == k) = false := beq_eq_false_iff_ne.mpr h
      simp [setAssoc, hb, List.find?, ih]

/-- C8.  The claim says validate_request_id rejects every string outside the
pattern caret [a-zA-Z0-9_-] 1-to-100 dollar, in particular every string
containing whitespace.  The code is a slip against its own inline comment
"Only allow alphanumeric, hyphens, and underscores": the Python dollar anchor
also matches just before one trailing newline, so "abc" followed by a newline
is accepted and returned unchanged, although the documented pattern set
rejects it. -/
theorem validate_request_id_trailing_newline :
    validate_request_id "abc\n" = (some "abc\n", none) ∧
      spec_request_id_ok "abc\n" = false := by
  constructor
  · rfl
  · rfl

/-- C10.  On every accepted input the identifier returned by
validate_request_id is the input string itself: validation never rewrites
the externally supplied token. -/
theorem validate_request_id_identity :
    ∀ (s r : String), (validate_request_id s).1 = some r → r = s := by
  intro s r h
  simp only [validate_request_id] at h
  split_ifs at h <;> simp_all

/-- Witness for C10 at a concrete accepted input. -/
theorem validate_request_id_identity_witness :
    (validate_request_id "abc-123").1 = some "abc-123" ∧ "abc-123" = "abc-123" :=
  ⟨by rfl, validate_request_id_identity "abc-123" "abc-123" (by rfl)⟩

/-- C7 counterexample.  With a dependency mapping containing none of the four
loader keys, generate_server does fail before any mod download, but the
surfaced classification is the generic "Internal server error" produced by
the TypeError handler, a string that does not even mention a loader — not a
"no loader detected" classification as claimed. -/
theorem no_loader_generic_error :
    loader_detect_phase [("minecraft", "1.20.1")] =
        .failed "Internal server error" false ∧
      containsSub "loader".data "Internal server error".data = false := by
  constructor
  · rfl
  · rfl

/-- C7 amended.  When no recognized loader key is present, generate_server
fails before any mod download with the generic "Internal server error"
classification (an unhandled TypeError, not a dedicated "no loader detected"
error); when keys are present, detect_loader picks the first of fabric-loader,
forge, quilt-loader, neoforge in that order, mapped through split on dash. -/
theorem detect_loader_priority :
    ∀ deps : List (String × String),
      ((lookupAssoc "fabric-loader" deps = none ∧ lookupAssoc "forge" deps = none ∧
          lookupAssoc "quilt-loader" deps = none ∧ lookupAssoc "neoforge" deps = none) →
        loader_detect_phase deps = .failed "Internal server error" false) ∧
      (∀ v, lookupAssoc "fabric-loader" deps = some v →
        detect_loader deps = some ("fabric", v)) ∧
      (∀ v, lookupAssoc "fabric-loader" deps = none →
        lookupAssoc "forge" deps = some v →
        detect_loader deps = some ("forge", v)) ∧
      (∀ v, lookupAssoc "fabric-loader" deps = none →
        lookupAssoc "forge" deps = none →
        lookupAssoc "quilt-loader" deps = some v →
        detect_loader deps = some ("quilt", v)) ∧
      (∀ v, lookupAssoc "fabric-loader" deps = none →
        lookupAssoc "forge" deps = none →
        lookupAssoc "quilt-loader" deps = none →
        lookupAssoc "neoforge" deps = some v →
        detect_loader deps = some ("neoforge", v)) := by
  intro deps
  refine ⟨?_, ?_, ?_, ?_, ?_⟩
  · intro ⟨h1, h2, h3, h4⟩
    simp [loader_detect_phase, detect_loader, List.find?, h1, h2, h3, h4]
  · intro v h1
    simp [detect_loader, List.find?, h1]
    rfl
  · intro v h1 h2
    simp [detect_loader, List.find?, h1, h2]
    rfl
  · intro v h1 h2 h3
    simp [detect_loader, List.find?, h1, h2, h3]
    rfl
  · intro v h1 h2 h3 h4
    simp [detect_loader, List.find?, h1, h2, h3, h4]
    rfl

/-- Witness for C7 at a concrete dependency mapping. -/
theorem detect_loader_priority_witness :
    lookupAssoc "fabric-loader" [("minecraft", "1.20.1"), ("forge", "47.2.0")] = none ∧
      detect_loader [("minecraft", "1.20.1"), ("forge", "47.2.0")] = some ("forge", "47.2.0") :=
  ⟨by rfl,
    (detect_loader_priority [("minecraft", "1.20.1"), ("forge", "47.2.0")]).2.2.1
      "47.2.0" (by rfl) (by rfl)⟩

/-- C1.  The claim says a child that produces no output for NO_OUTPUT_TIMEOUT
while still running is terminated and reported failed (code -1) within
stuck_timeout plus epsilon.  The code intends this (the comment at app.py
line 2574 and the log line at 2576 say so) but the loop reads lines with a
blocking readline: for a child that stays alive and writes nothing, readline
never returns, no check in the loop is ever reached, and the supervisor
blocks forever — first conjunct.  The stuck branch itself is reachable only
when the child keeps delivering lines: a single blank line arriving after the
window does trigger the -1 report — second conjunct. -/
theorem run_installer_silent_child_blocks :
    run_installer true "fabric-installer.jar" ⟨[], none⟩ = .blockedForever ∧
      run_installer true "fabric-installer.jar" ⟨[(301, "")], none⟩ =
        .result (-1) ["Installer timed out due to no output"] := by
  constructor
  · rfl
  · rfl

/-- C5 counterexample.  With two candidates both preferred (both contain
server), both survive exclusion and the first in directory-listing order is
a-server.jar, yet the heuristic returns b-server.jar: preferred names are
prepended one by one, so the last preferred name in listing order wins,
refuting "takes the first in directory-listing order when multiple remain". -/
theorem fabric_select_last_preferred_wins :
    fabric_select_jar ["a-server.jar", "b-server.jar"] = some "b-server.jar" ∧
      (jar_candidates ["a-server.jar", "b-server.jar"]).filter
          (fun f => !(jar_excluded f)) = ["a-server.jar", "b-server.jar"] ∧
      ¬ (some "b-server.jar" = some ("a-server.jar" : String)) := by
  refine ⟨by rfl, by rfl, ?_⟩
  intro h
  simp at h

/-- C2 counterexample.  An entry whose backing file was deleted out-of-band:
the next lookup is a miss, as claimed, but the entry is not removed — the
missing-file branch of _get_forge_from_cache returns with the cache dict
untouched, refuting "the entry is removed". -/
theorem cache_miss_keeps_entry :
    get_forge_from_cache "1.20.1-47.2.0"
        ⟨[("1.20.1-47.2.0", ⟨"forge-1.20.1-47.2.0.zip", true, 5, 0⟩)], [], 10⟩ =
      (none, ⟨[("1.20.1-47.2.0", ⟨"forge-1.20.1-47.2.0.zip", true, 5, 0⟩)], [], 10⟩) := by
  rfl

/-- C2 amended.  The lookup returns an entry only when the backing file
exists, the age is within FORGE_CACHE_MAX_AGE and the recorded size matches
the on-disk size; when the backing file has been deleted out-of-band the next
lookup returns None but the entry is left in place (only the expired-age case
evicts); and a store that is not skipped by the total-size ceiling, for a
file present on disk, followed immediately by a lookup with the same key,
returns the stored entry. -/
theorem forge_cache_lookup_contract :
    ∀ (st : ForgeCacheState) (v : String),
      (∀ info, (get_forge_from_cache v st).1 = some info →
        fs_size st info.path = some info.size ∧
          st.now - info.timestamp < FORGE_CACHE_MAX_AGE) ∧
      (∀ k info, st.cache.find? (fun q => q.1 == v) = some (k, info) →
        fs_size st info.path = none →
        get_forge_from_cache v st = (none, st)) ∧
      (∀ p z sz, fs_size st p = some sz →
        total_cache_size st + sz ≤ FORGE_CACHE_MAX_SIZE →
        (get_forge_from_cache v (save_forge_to_cache v p z st)).1 =
          some ⟨p, z, sz, st.now⟩) := by
  intro st v
  refine ⟨?_, ?_, ?_⟩
  · intro info h
    rcases hf : st.cache.find? (fun q => q.1 == v) with _ | ⟨k, info0⟩
    · simp [get_forge_from_cache, hf] at h
    · rcases hs : fs_size st info0.path with _ | d
      · simp [get_forge_from_cache, hf, hs] at h
      · by_cases ha : st.now - info0.timestamp < FORGE_CACHE_MAX_AGE
        · by_cases hd : d = info0.size
          · subst hd
            simp [get_forge_from_cache, hf, hs, ha] at h
            subst h
            exact ⟨hs, ha⟩
          · simp [get_forge_from_cache, hf, hs, ha, hd] at h
        · simp [get_forge_from_cache, hf, hs, ha] at h
  · intro k info hf hs
    simp only [get_forge_from_cache, hf, hs]
  · intro p z sz hp hle
    have hsave : save_forge_to_cache v p z st =
        { st with cache := setAssoc v ⟨p, z, sz, st.now⟩ st.cache } := by
      simp only [save_forge_to_cache, hp]
      rw [if_neg (by omega)]
    rw [hsave]
    have hfind := setAssoc_find_self v (⟨p, z, sz, st.now⟩ : CacheInfo) st.cache
    simp only [get_forge_from_cache, hfind]
    have hfs : fs_size { st with cache := setAssoc v ⟨p, z, sz, st.now⟩ st.cache } p =
        some sz := hp
    simp only [hfs]
    rw [if_pos (by simp [FORGE_CACHE_MAX_AGE])]
    simp

/-- Witness for C2 at concrete states: a valid hit, and a store followed by
a lookup. -/
theorem forge_cache_lookup_contract_witness :
    fs_size ⟨[], [("f.zip", 5)], 42⟩ "f.zip" = some 5 ∧
      total_cache_size ⟨[], [("f.zip", 5)], 42⟩ + 5 ≤ FORGE_CACHE_MAX_SIZE ∧
      (get_forge_from_cache "1.20.1-47.2.0"
          (save_forge_to_cache "1.20.1-47.2.0" "f.zip" true ⟨[], [("f.zip", 5)], 42⟩)).1 =
        some ⟨"f.zip", true, 5, 42⟩ :=
  ⟨by rfl, by decide,
    (forge_cache_lookup_contract ⟨[], [("f.zip", 5)], 42⟩ "1.20.1-47.2.0").2.2
      "f.zip" true 5 (by rfl) (by decide)⟩

theorem zip_walk_step (p : String) (sz : Nat) (rest : List (String × Nat))
    (count total : Nat) (acc : List String) :
    zip_walk ((p, sz) :: rest) count total acc =
      (if 100000 ≤ count then Except.error () else
        if 10 * 1024 ^ 3 < total + sz then Except.error ()
        else if zip_unsafe_path p then zip_walk rest count (total + sz) acc
        else zip_walk rest (count + 1) (total + sz) (acc ++ [p])) := rfl

theorem zip_walk_count_cap :
    ∀ (files : List (String × Nat)) (count total : Nat) (acc : List String),
      (∀ f ∈ files, zip_unsafe_path f.1 = false) → count ≤ 100000 →
      100000 < count + files.length → zip_walk files count total acc = .error () := by
  intro files
  induction files with
  | nil =>
    intro count total acc _ hle hgt
    simp at hgt
    omega
  | cons f rest ih =>
    intro count total acc hsafe hle hgt
    obtain ⟨p, sz⟩ := f
    rw [zip_walk_step]
    by_cases hc : 100000 ≤ count
    · rw [if_pos hc]
    · rw [if_neg hc]
      by_cases hs : 10 * 1024 ^ 3 < total + sz
      · rw [if_pos hs]
      · rw [if_neg hs]
        have hp : zip_unsafe_path p = false := hsafe (p, sz) (by simp)
        rw [hp, if_neg (by simp)]
        exact ih (count + 1) (total + sz) (acc ++ [p])
          (fun g hg => hsafe g (by simp [hg])) (by omega)
          (by simp at hgt; omega)

theorem zip_walk_size_cap :
    ∀ (files : List (String × Nat)) (count total : Nat) (acc : List String),
      total ≤ 10 * 1024 ^ 3 → 10 * 1024 ^ 3 < total + (files.map Prod.snd).sum →
      zip_walk files count total acc = .error () := by
  intro files
  induction files with
  | nil =>
    intro count total acc hle hgt
    simp at hgt
    omega
  | cons f rest ih =>
    intro count total acc hle hgt
    obtain ⟨p, sz⟩ := f
    rw [zip_walk_step]
    by_cases hc : 100000 ≤ count
    · rw [if_pos hc]
    · rw [if_neg hc]
      by_cases hs : 10 * 1024 ^ 3 < total + sz
      · rw [if_pos hs]
      · rw [if_neg hs]
        have hrec : 10 * 1024 ^ 3 < total + sz + (rest.map Prod.snd).sum := by
          simp at hgt
          omega
        by_cases hp : zip_unsafe_path p = true
        · rw [if_pos hp]
          exact ih count (total + sz) acc (by omega) hrec
        · rw [if_neg hp]
          exact ih (count + 1) (total + sz) (acc ++ [p]) (by omega) hrec

theorem zip_walk_entries_safe :
    ∀ (files : List (String × Nat)) (count total : Nat) (acc entries : List String),
      (∀ e ∈ acc, zip_unsafe_path e = false) →
      zip_walk files count total acc = .ok entries →
      ∀ e ∈ entries, zip_unsafe_path e = false := by
  intro files
  induction files with
  | nil =>
    intro count total acc entries hacc h
    simp [zip_walk] at h
    subst h
    exact hacc
  | cons f rest ih =>
    intro count total acc entries hacc h
    obtain ⟨p, sz⟩ := f
    rw [zip_walk_step] at h
    by_cases hc : 100000 ≤ count
    · rw [if_pos hc] at h
      exact absurd h (by simp)
    · rw [if_neg hc] at h
      by_cases hs : 10 * 1024 ^ 3 < total + sz
      · rw [if_pos hs] at h
        exact absurd h (by simp)
      · rw [if_neg hs] at h
        by_cases hp : zip_unsafe_path p = true
        · rw [if_pos hp] at h
          exact ih count (total + sz) acc entries hacc h
        · rw [if_neg hp] at h
          refine ih (count + 1) (total + sz) (acc ++ [p]) entries ?_ h
          intro e he
          rcases List.mem_append.mp he with he2 | he2
          · exact hacc e he2
          · simp at he2
            subst he2
            simpa using hp

/-- C6.  When the walked server directory (with the traversal-safe relative
paths a real os.walk produces) holds more than 100000 files, or the running
total of file sizes exceeds 10 GiB, build_zip_to_tempfile raises — modelled
by the error result whose source path removes the partial temporary ZIP
before re-raising, so no ZIP file is left on disk — and on success no written
arcname contains a dotdot segment or is absolute. -/
theorem build_zip_caps_and_safety :
    ∀ files : List (String × Nat),
      ((∀ f ∈ files, zip_unsafe_path f.1 = false) → 100000 < files.length →
        build_zip_to_tempfile files = .error ()) ∧
      (10 * 1024 ^ 3 < (files.map Prod.snd).sum →
        build_zip_to_tempfile files = .error ()) ∧
      (∀ entries, build_zip_to_tempfile files = .ok entries →
        ∀ e ∈ entries, zip_unsafe_path e = false) := by
  intro files
  refine ⟨?_, ?_, ?_⟩
  · intro hsafe hlen
    exact zip_walk_count_cap files 0 0 [] hsafe (by omega) (by omega)
  · intro hsum
    exact zip_walk_size_cap files 0 0 [] (by omega) (by omega)
  · intro entries h
    exact zip_walk_entries_safe files 0 0 [] entries (by simp) h

/-- Witness for C6: a directory of 100001 safe files hits the file-count cap. -/
theorem build_zip_caps_and_safety_witness :
    (∀ f ∈ List.replicate 100001 (("m.jar", 0) : String × Nat), zip_unsafe_path f.1 = false) ∧
      100000 < (List.replicate 100001 (("m.jar", 0) : String × Nat)).length ∧
      build_zip_to_tempfile (List.replicate 100001 ("m.jar", 0)) = .error () := by
  have h1 : ∀ f ∈ List.replicate 100001 (("m.jar", 0) : String × Nat),
      zip_unsafe_path f.1 = false := by
    intro f hf
    have he := List.eq_of_mem_replicate hf
    rw [he]
    rfl
  have h2 : 100000 < (List.replicate 100001 (("m.jar", 0) : String × Nat)).length := by
    rw [List.length_replicate]
    omega
  exact ⟨h1, h2, (build_zip_caps_and_safety (List.replicate 100001 ("m.jar", 0))).1 h1 h2⟩

/-- C3.  Whenever download_to_file raises — oversize declared Content-Length,
transferred bytes exceeding the limit, or a transport error on the final
retry — the destination file does not exist afterwards; a declared
Content-Length over the limit fails the attempt before the destination is
even opened (the state is untouched by that attempt); and the async variant
likewise leaves no destination file on any raise. -/
theorem download_failure_no_dest :
    (∀ (maxSize : Nat) (scripts : List AttemptScript) (st0 stF : DlState),
      download_to_file maxSize scripts st0 = .raised stF → stF.destExists = false) ∧
    (∀ (maxSize n : Nat) (chunks : List Nat) (intr : Bool) (st0 : DlState),
      maxSize < n →
      run_attempt maxSize (.response (some n) chunks intr) st0 = .fatalErr st0) ∧
    (∀ (maxSize : Nat) (script : AttemptScript) (st0 stF : DlState),
      async_download_to_file maxSize script st0 = .raised stF → stF.destExists = false) := by
  refine ⟨?_, ?_, ?_⟩
  · intro maxSize scripts
    induction scripts with
    | nil =>
      intro st0 stF h
      simp [download_to_file] at h
    | cons s rest ih =>
      intro st0 stF h
      cases rest with
      | nil =>
        rcases ha : run_attempt maxSize s st0 with st2 | st2 | st2 <;>
          simp only [download_to_file, ha] at h
        · exact absurd h (by simp)
        · have h2 : stF = ⟨false, 0⟩ := by simpa using h.symm
          rw [h2]
        · have h2 : stF = ⟨false, 0⟩ := by simpa using h.symm
          rw [h2]
      | cons s2 rest2 =>
        rcases ha : run_attempt maxSize s st0 with st2 | st2 | st2 <;>
          simp only [download_to_file, ha] at h
        · exact absurd h (by simp)
        · exact ih st2 stF h
        · have h2 : stF = ⟨false, 0⟩ := by simpa using h.symm
          rw [h2]
  · intro maxSize n chunks intr st0 hn
    simp [run_attempt, hn]
  · intro maxSize script st0 stF h
    rcases script with _ | ⟨cl, chunks, intr⟩
    · simp [async_download_to_file] at h
      rw [← h]
    · rcases cl with _ | n
      · rcases hw : async_write_chunks maxSize chunks 0 with _ | k <;>
          simp only [async_download_to_file, hw] at h
        · rw [← (by simpa using h : DlState.mk false 0 = stF)]
        · by_cases hi : intr
          · rw [if_pos hi] at h
            rw [← (by simpa using h : DlState.mk false 0 = stF)]
          · rw [if_neg hi] at h
            exact absurd h (by simp)
      · by_cases hn : maxSize < n
        · simp only [async_download_to_file, if_pos hn] at h
          rw [← (by simpa using h : DlState.mk false 0 = stF)]
        · rcases hw : async_write_chunks maxSize chunks 0 with _ | k <;>
            simp only [async_download_to_file, if_neg hn, hw] at h
          · rw [← (by simpa using h : DlState.mk false 0 = stF)]
          · by_cases hi : intr
            · rw [if_pos hi] at h
              rw [← (by simpa using h : DlState.mk false 0 = stF)]
            · rw [if_neg hi] at h
              exact absurd h (by simp)

theorem prioritize_go (pref excl : String → Bool) :
    ∀ (l acc : List String),
      l.foldl (fun acc f => if excl f then acc else if pref f then f :: acc else acc ++ [f]) acc =
        ((l.filter (fun f => !(excl f))).filter pref).reverse ++ acc ++
          (l.filter (fun f => !(excl f))).filter (fun f => !(pref f)) := by
  intro l
  induction l with
  | nil => intro acc; simp
  | cons x t ih =>
    intro acc
    by_cases hx : excl x
    · simp [hx, ih]
    · by_cases hp : pref x
      · simp [hx, hp, ih (x :: acc)]
      · simp [hx, hp, ih (acc ++ [x])]

/-- C5 amended.  The heuristic excludes names containing launch, installer or
client (case-insensitive); among the remainder it prefers names containing
server or, for Fabric, names starting with minecraft and, for NeoForge, names
containing neoforge; preferred names are prepended one by one, so with
several preferred candidates the last in directory-listing order is selected,
while with only non-preferred candidates the first is; when nothing remains
after exclusion it falls back to the first entry of the jar_files list, which
already omits names containing installer.  On the candidate listing of the
claim it selects minecraft-server-1.20.jar. -/
theorem jar_selection_characterization :
    (∀ (pref excl : String → Bool) (listing : List String),
      select_target_jar pref excl listing = heuristic_spec_form pref excl listing) ∧
      fabric_select_jar ["fabric-installer.jar", "minecraft-server-1.20.jar", "client.jar"] =
        some "minecraft-server-1.20.jar" ∧
      neoforge_select_jar ["fabric-installer.jar", "minecraft-server-1.20.jar", "client.jar"] =
        some "minecraft-server-1.20.jar" := by
  refine ⟨?_, by rfl, by rfl⟩
  intro pref excl listing
  unfold select_target_jar heuristic_spec_form prioritize
  simp only [prioritize_go]
  simp

theorem getLast?_append_singleton {α : Type} (x : α) (l : List α) :
    (l ++ [x]).getLast? = some x := by
  rw [List.getLast?_append_of_ne_nil l (by simp)]
  rfl

/-- Witness for C3: three transport failures in a row raise and leave no
destination file; a declared Content-Length of 200 over a limit of 100 fails
with the attempt state untouched. -/
theorem download_failure_no_dest_witness :
    download_to_file 100 [.connectFail, .connectFail, .connectFail] ⟨false, 0⟩ =
        .raised ⟨false, 0⟩ ∧
      (DlState.mk false 0).destExists = false ∧
      (100 : Nat) < 200 ∧
      run_attempt 100 (.response (some 200) [] false) ⟨false, 0⟩ = .fatalErr ⟨false, 0⟩ :=
  ⟨by rfl,
    download_failure_no_dest.1 100 [.connectFail, .connectFail, .connectFail]
      ⟨false, 0⟩ ⟨false, 0⟩ (by rfl),
    by decide,
    download_failure_no_dest.2.1 100 200 [] false ⟨false, 0⟩ (by decide)⟩

theorem rename_eula_block (target : String) (ws : List FsWrite)
    (h : rename_to_server_jar target ++ [eula_write] = ws) :
    ws.getLast? = some eula_write ∧
      ∀ c, FsWrite.file "eula.txt" c ∈ ws → c = "eula=false\n" := by
  subst h
  refine ⟨getLast?_append_singleton eula_write _, ?_⟩
  intro c hc
  rcases List.mem_append.mp hc with h2 | h2
  · unfold rename_to_server_jar at h2
    split_ifs at h2 <;> simp at h2
  · simp [eula_write] at h2
    exact h2

set_option maxHeartbeats 3000000 in
/-- C9.  Every provisioning variant, on reaching its success path, performs
the write of eula.txt with content eula=false and newline as its final write
into the server directory, and no branch ever writes eula.txt with any other
content — the system never auto-accepts the EULA. -/
theorem provision_eula_final :
    (∀ (fetchOk writable wt : Bool) (rc : Int) (listing : List String) (ws : List FsWrite),
      setup_fabric fetchOk writable wt rc listing = .ok ws →
        ws.getLast? = some eula_write ∧
          ∀ c, FsWrite.file "eula.txt" c ∈ ws → c = "eula=false\n") ∧
    (∀ (env : NeoForgeEnv) (ws : List FsWrite),
      setup_neoforge env = .ok ws →
        ws.getLast? = some eula_write ∧
          ∀ c, FsWrite.file "eula.txt" c ∈ ws → c = "eula=false\n") ∧
    (∀ (env : ForgeEnv) (ws : List FsWrite),
      setup_forge env = .ok ws →
        ws.getLast? = some eula_write ∧
          ∀ c, FsWrite.file "eula.txt" c ∈ ws → c = "eula=false\n") ∧
    (∀ (env : QuiltEnv) (ws : List FsWrite),
      setup_quilt env = .ok ws →
        ws.getLast? = some eula_write ∧
          ∀ c, FsWrite.file "eula.txt" c ∈ ws → c = "eula=false\n") := by
  refine ⟨?_, ?_, ?_, ?_⟩
  · intro fetchOk writable wt rc listing ws h
    unfold setup_fabric at h
    split_ifs at h
    rcases hsel : fabric_select_jar listing with _ | target <;> rw [hsel] at h
    · exact Except.noConfusion h
    · injection h with hws
      exact rename_eula_block target ws hws
  · intro env ws h
    unfold setup_neoforge at h
    split_ifs at h
    rcases hsel : neoforge_select_jar env.listing with _ | target <;> rw [hsel] at h
    · exact Except.noConfusion h
    · injection h with hws
      exact rename_eula_block target ws hws
  · intro env ws h
    unfold setup_forge forge_zip_writes at h
    split_ifs at h
    all_goals
      injection h with hws
      subst hws
      refine ⟨by rfl, ?_⟩
      intro c hc
      simp [eula_write] at hc
      exact hc
  · intro env ws h
    unfold setup_quilt quilt_tail at h
    split_ifs at h
    all_goals
      injection h with hws
      subst hws
      refine ⟨by rfl, ?_⟩
      intro c hc
      simp [eula_write] at hc
      exact hc

theorem getBuf_mk (L : List String) (B : List (String × List (List Char))) (rid : String) :
    getBuf rid ⟨L, B⟩ = (B.find? (fun p => p.1 == rid)).map (fun p => p.2) := rfl

theorem contains_append_singleton (l : List String) (a b : String) :
    (l ++ [a]).contains b = (l.contains b || (b == a)) := by
  simp only [List.contains, List.elem_eq_mem, List.mem_append, List.mem_singleton]
  cases hba : b == a
  · have hne : ¬ (b = a) := by simpa using hba
    simp [hne]
  · have heq : b = a := by simpa using hba
    simp [heq]

theorem buffer_append_capped_drop (s : List (List Char)) (x : List Char) :
    buffer_append_capped (s.drop (s.length - 10000)) x =
      (s ++ [x]).drop ((s ++ [x]).length - 10000) := by
  unfold buffer_append_capped
  by_cases hn : s.length < 10000
  · have h0 : s.length - 10000 = 0 := by omega
    have h1 : (s ++ [x]).length - 10000 = 0 := by
      rw [List.length_append]
      simp only [List.length_singleton]
      omega
    rw [h0, List.drop_zero, h1, List.drop_zero]
    rw [if_neg (by rw [List.length_append]; simp only [List.length_singleton]; omega)]
  · push_neg at hn
    have hk1 : s.length - 10000 + 1 ≤ s.length := by omega
    have hdlen : (s.drop (s.length - 10000)).length = 10000 := by
      rw [List.length_drop]
      omega
    rw [if_pos (by rw [List.length_append, hdlen]; simp only [List.length_singleton]; omega)]
    rw [List.length_append, hdlen, List.length_append]
    have h2 : 10000 + [x].length - 10000 = 1 := by
      simp only [List.length_singleton]
    have h3 : s.length + [x].length - 10000 = s.length - 10000 + 1 := by
      simp only [List.length_singleton]
      omega
    rw [h2, h3]
    rw [List.drop_append_of_le_length (by omega : 1 ≤ (s.drop (s.length - 10000)).length)]
    rw [List.drop_append_of_le_length hk1]
    rw [List.drop_drop]

theorem msgs_for_append (rid : String) (ps : List (String × List Char))
    (p : String × List Char) :
    msgs_for rid (ps ++ [p]) =
      msgs_for rid ps ++ (if p.1 == rid then [sanitize_message p.2] else []) := by
  unfold msgs_for
  rw [List.filter_append, List.map_append]
  by_cases h : p.1 == rid
  · simp [h]
  · simp only [beq_iff_eq] at h
    simp [h]

theorem apply_push_log_concat (ps : List (String × List Char)) (p : String × List Char)
    (st : LogState) :
    apply_push_log (ps ++ [p]) st = push_log p.1 p.2 (apply_push_log ps st) := by
  unfold apply_push_log
  rw [List.foldl_append]
  rfl

theorem push_log_other (r : String) (m : List Char) (rid : String) (st : LogState)
    (hr : (r == rid) = false) :
    getBuf rid (push_log r m st) = getBuf rid st ∧
      (push_log r m st).log_locks.contains rid = st.log_locks.contains rid := by
  constructor
  · unfold push_log
    by_cases hre : r = ""
    · rw [if_pos hre]
    · rw [if_neg hre]
      by_cases hc : st.log_locks.contains r
      · simp only [hc, if_true]
        rw [getBuf_mk, setAssoc_lookup_other r rid _ _ hr]
        rfl
      · simp only [hc, Bool.false_eq_true, if_false]
        rw [getBuf_mk, setAssoc_lookup_other r rid _ _ hr, setAssoc_lookup_other r rid _ _ hr]
        rfl
  · unfold push_log
    by_cases hre : r = ""
    · rw [if_pos hre]
    · rw [if_neg hre]
      by_cases hc : st.log_locks.contains r
      · simp only [hc, if_true]
      · simp only [hc, Bool.false_eq_true, if_false]
        show (st.log_locks ++ [r]).contains rid = st.log_locks.contains rid
        rw [contains_append_singleton]
        have h2 : (rid == r) = false :=
          beq_eq_false_iff_ne.mpr (fun he => (beq_eq_false_iff_ne.mp hr) he.symm)
        rw [h2, Bool.or_false]

theorem push_log_self_seen (rid : String) (m : List Char) (st : LogState)
    (hrid : rid ≠ "") (hc : st.log_locks.contains rid = true)
    (b : List (List Char)) (hb : getBuf rid st = some b) :
    getBuf rid (push_log rid m st) =
        some (buffer_append_capped b (sanitize_message m)) ∧
      (push_log rid m st).log_locks.contains rid = true := by
  constructor
  · unfold push_log
    rw [if_neg hrid]
    simp only [hc, if_true]
    rw [getBuf_mk, setAssoc_lookup_self, hb]
    rfl
  · unfold push_log
    rw [if_neg hrid]
    simp only [hc, if_true]

theorem push_log_self_unseen (rid : String) (m : List Char) (st : LogState)
    (hrid : rid ≠ "") (hc : st.log_locks.contains rid = false) :
    getBuf rid (push_log rid m st) =
        some (buffer_append_capped [] (sanitize_message m)) ∧
      (push_log rid m st).log_locks.contains rid = true := by
  unfold push_log
  rw [if_neg hrid]
  simp only [hc, Bool.false_eq_true, if_false]
  constructor
  · rw [getBuf_mk, setAssoc_lookup_self, getBuf_mk, setAssoc_lookup_self]
    rfl
  · show (st.log_locks ++ [rid]).contains rid = true
    rw [contains_append_singleton]
    simp

theorem apply_push_log_char :
    ∀ (pushes : List (String × List Char)) (rid : String), rid ≠ "" →
      (pushes.any (fun p => p.1 == rid) = true →
        getBuf rid (apply_push_log pushes ⟨[], []⟩) =
          some ((msgs_for rid pushes).drop ((msgs_for rid pushes).length - 10000))) ∧
      (pushes.any (fun p => p.1 == rid) = false →
        getBuf rid (apply_push_log pushes ⟨[], []⟩) = none) ∧
      (apply_push_log pushes ⟨[], []⟩).log_locks.contains rid =
        pushes.any (fun p => p.1 == rid) := by
  intro pushes
  induction pushes using List.reverseRecOn with
  | nil =>
    intro rid _
    refine ⟨?_, ?_, ?_⟩
    · intro h
      simp at h
    · intro _
      simp [apply_push_log, getBuf, List.find?]
    · simp [apply_push_log, List.contains, List.elem]
  | append_singleton ps p ih =>
    intro rid hrid
    obtain ⟨ihSome, ihNone, ihLock⟩ := ih rid hrid
    obtain ⟨r, m⟩ := p
    simp only [apply_push_log_concat, msgs_for_append, List.any_append, List.any_cons,
      List.any_nil, Bool.or_false]
    by_cases hr : (r == rid) = true
    · have hreq : r = rid := eq_of_beq hr
      subst hreq
      simp only [hr, Bool.or_true, eq_self_iff_true, if_true]
      refine ⟨?_, ?_, ?_⟩
      · intro _
        by_cases ha : ps.any (fun p => p.1 == r) = true
        · obtain ⟨hbuf, _⟩ :=
            push_log_self_seen r m (apply_push_log ps ⟨[], []⟩) hrid
              (by rw [ihLock]; exact ha) _ (ihSome ha)
          rw [hbuf, buffer_append_capped_drop]
        · have ha2 : ps.any (fun p => p.1 == r) = false := by
            cases hA : ps.any (fun p => p.1 == r)
            · rfl
            · exact absurd hA ha
          obtain ⟨hbuf, _⟩ :=
            push_log_self_unseen r m (apply_push_log ps ⟨[], []⟩) hrid
              (by rw [ihLock]; exact ha2)
          rw [hbuf]
          have hmsgs : msgs_for r ps = [] := by
            unfold msgs_for
            have hfil : ps.filter (fun p => p.1 == r) = [] := by
              rw [List.filter_eq_nil_iff]
              intro a hma
              have := (List.any_eq_false.mp ha2) a hma
              simpa using this
            rw [hfil, List.map_nil]
          rw [hmsgs]
          simp [buffer_append_capped]
      · intro hfalse
        exact absurd hfalse (by simp)
      · by_cases ha : ps.any (fun p => p.1 == r) = true
        · exact (push_log_self_seen r m (apply_push_log ps ⟨[], []⟩) hrid
            (by rw [ihLock]; exact ha) _ (ihSome ha)).2
        · have ha2 : ps.any (fun p => p.1 == r) = false := by
            cases hA : ps.any (fun p => p.1 == r)
            · rfl
            · exact absurd hA ha
          exact (push_log_self_unseen r m (apply_push_log ps ⟨[], []⟩) hrid
            (by rw [ihLock]; exact ha2)).2
    · have hr2 : (r == rid) = false := by simpa using hr
      simp only [hr2, Bool.or_false, Bool.false_eq_true, if_false, List.append_nil]
      obtain ⟨hbuf, hlock⟩ :=
        push_log_other r m rid (apply_push_log ps ⟨[], []⟩) hr2
      refine ⟨?_, ?_, ?_⟩
      · intro ha
        rw [hbuf]
        exact ihSome ha
      · intro ha
        rw [hbuf]
        exact ihNone ha
      · rw [hlock]
        exact ihLock

theorem sanitize_message_props (m : List Char) :
    (sanitize_message m).length ≤ 1000 ∧
      (sanitize_message m).all (fun c => !(c == '\n') && !(c == '\r')) = true := by
  constructor
  · exact List.length_take_le 1000 _
  · rw [List.all_eq_true]
    intro c hc
    have hc1 := List.mem_of_mem_take hc
    have hc2 := List.mem_filter.mp hc1
    obtain ⟨c0, _, hc0⟩ := List.mem_map.mp hc2.1
    have hnr : (c == '\r') = false := by
      have := hc2.2
      simp only [Bool.not_eq_eq_eq_not, Bool.not_true] at this
      exact this
    have hnn : (c == '\n') = false := by
      by_cases h0 : (c0 == '\n') = true
      · rw [← hc0]
        simp [h0]
      · have h0f : (c0 == '\n') = false := by simpa using h0
        rw [← hc0]
        simp [h0f]
    simp [hnn, hnr]

set_option maxHeartbeats 1000000 in
/-- C4.  After any sequence of push_log calls starting from the empty log
state, the buffer of each nonempty request id holds at most 10000 lines —
exactly the most recent sanitized messages pushed to it — and every stored
line is the sanitized form of its message: at most 1000 characters, free of
newlines and carriage returns.  The buffer and its lock are created together
on the first push for an unseen request id (the double-checked creation of
lines 2131-2136, atomic in this sequential model): buffer and lock exist
exactly when some push used that id. -/
theorem push_log_buffer_invariant :
    ∀ (pushes : List (String × List Char)) (rid : String), rid ≠ "" →
      (∀ buf, getBuf rid (apply_push_log pushes ⟨[], []⟩) = some buf →
        buf.length ≤ 10000 ∧
          buf = (msgs_for rid pushes).drop ((msgs_for rid pushes).length - 10000) ∧
          ∀ line ∈ buf, line.length ≤ 1000 ∧
            line.all (fun c => !(c == '\n') && !(c == '\r')) = true) ∧
      ((getBuf rid (apply_push_log pushes ⟨[], []⟩)).isSome =
        pushes.any (fun p => p.1 == rid)) ∧
      ((apply_push_log pushes ⟨[], []⟩).log_locks.contains rid =
        pushes.any (fun p => p.1 == rid)) := by
  intro pushes rid hrid
  obtain ⟨hSome, hNone, hlock⟩ := apply_push_log_char pushes rid hrid
  refine ⟨?_, ?_, hlock⟩
  · intro buf hb
    by_cases ha : pushes.any (fun p => p.1 == rid) = true
    · rw [hSome ha] at hb
      have hb2 : buf = (msgs_for rid pushes).drop ((msgs_for rid pushes).length - 10000) := by
        simpa using hb.symm
      refine ⟨?_, hb2, ?_⟩
      · rw [hb2, List.length_drop]
        omega
      · intro line hline
        rw [hb2] at hline
        have hmem : line ∈ msgs_for rid pushes := List.mem_of_mem_drop hline
        unfold msgs_for at hmem
        obtain ⟨q, _, hq⟩ := List.mem_map.mp hmem
        rw [← hq]
        exact sanitize_message_props q.2
    · have ha2 : pushes.any (fun p => p.1 == rid) = false := by
        cases hA : pushes.any (fun p => p.1 == rid)
        · rfl
        · exact absurd hA ha
      rw [hNone ha2] at hb
      simp at hb
  · by_cases ha : pushes.any (fun p => p.1 == rid) = true
    · rw [hSome ha, ha]
      rfl
    · have ha2 : pushes.any (fun p => p.1 == rid) = false := by
        cases hA : pushes.any (fun p => p.1 == rid)
        · rfl
        · exact absurd hA ha
      rw [hNone ha2, ha2]
      rfl

/-- Witness for C4 at a concrete push sequence. -/
theorem push_log_buffer_invariant_witness :
    ("r1" : String) ≠ "" ∧
      getBuf "r1" (apply_push_log [("r1", "a\nb\rc".data), ("r2", "x".data)] ⟨[], []⟩) =
        some ["a bc".data] ∧
      (getBuf "r1" (apply_push_log [("r1", "a\nb\rc".data), ("r2", "x".data)] ⟨[], []⟩)).isSome =
        [("r1", "a\nb\rc".data), ("r2", "x".data)].any (fun p => p.1 == "r1") :=
  ⟨by decide, by decide,
    (push_log_buffer_invariant [("r1", "a\nb\rc".data), ("r2", "x".data)] "r1"
      (by decide)).2.1⟩

/-- Witness for C9 at concrete environments, one per variant. -/
theorem provision_eula_final_witness :
    setup_fabric true true false 0 ["minecraft-server.jar"] =
        .ok [.jar "server.jar", eula_write] ∧
      ([FsWrite.jar "server.jar", eula_write].getLast? = some eula_write ∧
        ∀ c, FsWrite.file "eula.txt" c ∈ [FsWrite.jar "server.jar", eula_write] →
          c = "eula=false\n") :=
  ⟨by rfl,
    provision_eula_final.1 true true false 0 ["minecraft-server.jar"]
      [.jar "server.jar", eula_write] (by rfl)⟩

end Mrpack
